import Mathlib

/-!
Shallow embedding of the genlog log generator (P1llus/genlog):
weighted template selection, log-line generation, the custom-type value
functions, the worker batch/flush loop, orchestrator construction and
shutdown.  Machine integers are modelled as `Nat` (weights and counts are
non-negative in the data model); Go's `(value, error)` returns become
pairs with `Option String`, failure-or-panic becomes an explicit sum.
-/

namespace Genlog

/-- A log template: text plus its non-negative selection weight
(`config.LogTemplate`). -/
structure LogTemplate where
  template : String
  weight : Nat
deriving Repr, DecidableEq

/-- The output kind (`config.OutputType`): Go models it as a string, with
`"file"` and `"udp"` recognised and every other string unsupported. -/
inductive OType where
  | file : OType
  | udp : OType
  | other : String → OType
deriving Repr, DecidableEq

/-- One output configuration (`config.OutputConfig`).  The kind-specific
`Config map[string]any` is modelled by the two keys the code reads,
each `some` exactly when the key is present with a string value. -/
structure OutputConfig where
  otype : OType
  workers : Nat
  batchSize : Nat
  filename : Option String
  address : Option String
deriving Repr, DecidableEq

/-- The top-level configuration (`config.Config`). -/
structure Config where
  templates : List LogTemplate
  outputs : List OutputConfig
  customTypes : List (String × List String)
  seed : Nat
deriving Repr, DecidableEq

/-- A Go failure: a returned `error` value, or a runtime panic
(Go panics are not returned errors; the distinction matters for
division by zero in `initializeOutputs`). -/
inductive GoFailure where
  | err : String → GoFailure
  | panic : String → GoFailure
deriving Repr, DecidableEq

/-! ## Weighted template selection (`selectWeightedTemplate`) -/

/-- Running sum of the first `n` weights: the accumulator `sum` of the Go
loop after `n` iterations. -/
def prefixW (ws : List Nat) (n : Nat) : Nat :=
  (ws.take n).sum

/-- The loop body of `selectWeightedTemplate`: walk the weights keeping the
running sum `sum` and index `i`; return the first index with `r < sum`
after adding that weight; falling off the end returns 0 (the function's
final `return 0`). -/
def selectAux : List Nat → Nat → Nat → Nat → Nat
  | [], _, _, _ => 0
  | w :: ws, r, sum, i => if r < sum + w then i else selectAux ws r (sum + w) (i + 1)

/-- `selectWeightedTemplate` given the drawn value `r`
(`r = gofakeit.IntRange(0, totalWeight-1)` in the source): the guard
returns 0 when the total weight is zero or there are no templates,
otherwise the accumulation loop runs. -/
def selectWeightedTemplate (ws : List Nat) (r : Nat) : Nat :=
  if ws.sum = 0 ∨ ws.length = 0 then 0 else selectAux ws r 0 0

/-! ## Custom-type value functions (`createRandomValueFunc`) -/

/-- The function installed for one custom type, given the drawn index `r`
(`r = gofakeit.IntRange(0, len(values)-1)` in the source): empty list
returns the empty string, otherwise the element at the drawn index. -/
def createRandomValueFunc (values : List String) (r : Nat) : String :=
  if values.length = 0 then "" else values.getD r ""

/-! ## Log-line generation (`GenerateLogLine`)

The gofakeit pseudo-random source is global, deterministic state; it is
modelled abstractly as a state type `S` with a deterministic seeding
function, a deterministic `intRange` draw and a deterministic template
renderer (the external `gofakeit.Template` call), mirroring that every
draw is a pure function of the current state. -/

/-- Abstract deterministic model of the global gofakeit randomness and
the external template renderer.  Rendering takes, besides the template
text and the random-source state, the wall-clock instant observed at the
call (`Nat`): the in-scope `FormattedDate` function computes
`maxDate := time.Now()` at call time and draws from
`[2020-01-01, now]`, so the rendered text is a function of the clock as
well as of the random state; renderers for templates that do not
consult the clock simply ignore this argument. -/
structure Rng (S : Type) where
  seedFn : Nat → S
  intRange : Nat → Nat → S → Nat × S
  renderTpl : String → Nat → S → (Except String String) × S

/-- Stateful `selectWeightedTemplate`: the guard, then one `IntRange`
draw feeding the accumulation loop. -/
def selectWeightedTemplateS {S : Type} (M : Rng S) (ws : List Nat) (σ : S) : Nat × S :=
  if ws.sum = 0 ∨ ws.length = 0 then (0, σ)
  else
    let p := M.intRange 0 (ws.sum - 1) σ
    (selectAux ws p.1 0 0, p.2)

/-- `Generator.GenerateLogLine` (pipeline version): empty template list
returns `("", error "no templates available")`; otherwise select a
template, render it at the call-time clock instant `now`, and either
propagate the wrapped rendering error with an empty string or return
the rendered line with no error. -/
def generateLogLine {S : Type} (M : Rng S) (templates : List LogTemplate)
    (now : Nat) (σ : S) : (String × Option String) × S :=
  if templates.length = 0 then (("", some "no templates available"), σ)
  else
    match M.renderTpl
        (templates.getD
          (selectWeightedTemplateS M (templates.map (·.weight)) σ).1
          ⟨"", 0⟩).template
        now
        (selectWeightedTemplateS M (templates.map (·.weight)) σ).2 with
    | (Except.error e, σ2) => (("", some ("error generating log line: " ++ e)), σ2)
    | (Except.ok line, σ2) => ((line, none), σ2)

/-- `NewGenerator`'s effect on the global random source: `gofakeit.Seed`
is called exactly when the configured seed is non-zero, replacing
whatever state the process had before. -/
def newGeneratorSeed {S : Type} (M : Rng S) (seed : Nat) (σ : S) : S :=
  if seed ≠ 0 then M.seedFn seed else σ

/-- Run strictly sequential `GenerateLogLine` calls from state `σ`, one
per element of `clocks` (the wall-clock instant each call observes),
collecting the results in order. -/
def runN {S : Type} (M : Rng S) (templates : List LogTemplate) :
    List Nat → S → List (String × Option String)
  | [], _ => []
  | now :: clocks, σ =>
    let p := generateLogLine M templates now σ
    p.1 :: runN M templates clocks p.2

/-! ## Sink construction (`output.NewOutput`) -/

/-- `output.NewOutput` parameter validation: file outputs require the
`filename` key as a string, UDP outputs the `address` key, any other
kind is unsupported.  (Actual file creation / address resolution is
environment interaction, assumed to succeed.) -/
def newOutput (o : OutputConfig) : Except GoFailure Unit :=
  match o.otype with
  | OType.file =>
    match o.filename with
    | some _ => Except.ok ()
    | none => Except.error (GoFailure.err "filename is required for file output")
  | OType.udp =>
    match o.address with
    | some _ => Except.ok ()
    | none => Except.error (GoFailure.err "address is required for UDP output")
  | OType.other s => Except.error (GoFailure.err ("unsupported output type: " ++ s))

/-! ## Orchestrator construction (`NewGenerator` / `initializeOutputs`) -/

/-- The per-worker count limit computed by `initializeOutputs`:
`maxCount / workers`, plus one when the division leaves a remainder;
zero when the run is unbounded.  (The caller reaches the division only
when `maxCount > 0`; `workers = 0` there is a Go division-by-zero panic,
handled by the caller model.) -/
def maxCountPerWorker (maxCount workers : Nat) : Nat :=
  if 0 < maxCount then
    maxCount / workers + (if maxCount % workers = 0 then 0 else 1)
  else 0

/-- Parameters each `output.NewWorker` call receives. -/
structure WorkerCfg where
  batchSize : Nat
  maxCount : Nat
deriving Repr, DecidableEq

/-- The inner loop of `initializeOutputs`: create `n` sink/worker pairs
for one output; note the batch size is the literal `100` from the call
`output.NewWorker(out, g, 100, maxCountPerWorker, g.stopChan)`, not the
output's configured batch size. -/
def initWorkers (o : OutputConfig) (mcpw : Nat) : Nat → Except GoFailure (List WorkerCfg)
  | 0 => Except.ok []
  | n + 1 =>
    match newOutput o with
    | Except.error (GoFailure.err e) =>
      Except.error (GoFailure.err ("error creating output: " ++ e))
    | Except.error f => Except.error f
    | Except.ok _ =>
      match initWorkers o mcpw n with
      | Except.error f => Except.error f
      | Except.ok rest => Except.ok (⟨100, mcpw⟩ :: rest)

/-- `initializeOutputs`: for each output, compute the per-worker limit
(panicking on a zero worker count when `maxCount > 0`, since Go's
integer division by zero panics) and create its workers. -/
def initializeOutputs (maxCount : Nat) : List OutputConfig → Except GoFailure (List WorkerCfg)
  | [] => Except.ok []
  | o :: rest =>
    if 0 < maxCount ∧ o.workers = 0 then
      Except.error (GoFailure.panic "runtime error: integer divide by zero")
    else
      match initWorkers o (maxCountPerWorker maxCount o.workers) o.workers with
      | Except.error f => Except.error f
      | Except.ok ws =>
        match initializeOutputs maxCount rest with
        | Except.error f => Except.error f
        | Except.ok ws2 => Except.ok (ws ++ ws2)

/-- `NewGenerator` (pipeline version): computes the total weight, builds
the function map, and initialises outputs and workers, wrapping any
returned error.  It performs no call to `Config.Validate`: neither the
template list nor the outputs list is checked for emptiness. -/
def NewGenerator (cfg : Config) (maxCount : Nat) : Except GoFailure (List WorkerCfg) :=
  match initializeOutputs maxCount cfg.outputs with
  | Except.error (GoFailure.err e) =>
    Except.error (GoFailure.err ("error initializing outputs: " ++ e))
  | Except.error f => Except.error f
  | Except.ok ws => Except.ok ws

/-- The per-output loop of `Config.Validate`.  The Go loop's range
variable `output` is a copy, so its default assignments
`output.BatchSize = 100` and `output.Workers = 1` mutate the copy and
are dropped: validation only ever reads `Type` and the kind-specific
keys, and the receiver is never changed. -/
def validateOutputs : List OutputConfig → Option String
  | [] => none
  | o :: rest =>
    match o.otype with
    | OType.file =>
      match o.filename with
      | some _ => validateOutputs rest
      | none => some "filename is required for file output"
    | OType.udp =>
      match o.address with
      | some _ => validateOutputs rest
      | none => some "address is required for UDP output"
    | OType.other s => some ("unsupported output type: " ++ s)

/-- `Config.Validate`: empty template list, empty outputs list, then the
per-output kind/parameter checks.  The function is defined in the source
but never called by any construction path (`NewGenerator`,
`NewFromConfig`, `NewFromFile` and the CLI all skip it). -/
def validateGo (c : Config) : Option String :=
  if c.templates.length = 0 then some "no templates configured"
  else if c.outputs.length = 0 then some "no outputs configured"
  else validateOutputs c.outputs

/-! ## Orchestrator shutdown (`Generator.Stop`) -/

/-- The sink-closing loop of `Stop`, applied to the list of each close
call's outcome (`none` = success): returns the first wrapped close error
together with how many closes were attempted — the Go loop `return`s
inside the loop on the first failure, abandoning the remaining sinks. -/
def closeAll : List (Option String) → Option String × Nat
  | [] => (none, 0)
  | none :: rest =>
    let p := closeAll rest
    (p.1, p.2 + 1)
  | some e :: _ => (some ("error closing output: " ++ e), 1)

/-! ## The worker loop (`output.Worker.Start`)

One loop iteration is driven by which `select` branch runs (the raised
stop channel, the 100ms ticker, or the non-blocking `default`), the
generator's result on the default path, and whether a sink write
attempted in that iteration succeeds.  The state records the batch
buffer, the generated-line count, the lines successfully written to the
sink, every line the generator produced (for bookkeeping), and whether
the loop has returned. -/

/-- Which `select` branch runs in one iteration of `Worker.Start`. -/
inductive Branch where
  | stop : Branch
  | tick : Branch
  | dflt : Branch
deriving Repr, DecidableEq

/-- The environment input of one worker loop iteration. -/
structure WStep where
  br : Branch
  gen : Except String String
  wOk : Bool
deriving Repr

/-- Worker loop state. -/
structure WState where
  batch : List String
  count : Nat
  written : List String
  generated : List String
  done : Bool
deriving Repr, DecidableEq

/-- The initial worker state: empty batch, zero count, nothing written. -/
def initWState : WState :=
  ⟨[], 0, [], [], false⟩

/-- One iteration of `Worker.Start` with batch size `bs` and count limit
`mc` (`0` = unbounded).  Stop branch: write any non-empty batch (losing
it if the write fails) and return.  Ticker branch: only when the batch
has reached `bs`, attempt the write and clear the batch even when the
write failed (`batch = batch[:0]` runs unconditionally after the
attempt).  Default branch: at the count limit, final-flush and return;
otherwise one `GenerateLogLine`, skipping the line on error, appending
it and incrementing the count on success. -/
def workerStep (bs mc : Nat) (s : WState) (e : WStep) : WState :=
  if s.done then s
  else
    match e.br with
    | Branch.stop =>
      if s.batch.length ≠ 0 then
        if e.wOk then
          { s with written := s.written ++ s.batch, done := true }
        else
          { s with done := true }
      else
        { s with done := true }
    | Branch.tick =>
      if bs ≤ s.batch.length then
        if e.wOk then
          { s with written := s.written ++ s.batch, batch := [] }
        else
          { s with batch := [] }
      else s
    | Branch.dflt =>
      if 0 < mc ∧ mc ≤ s.count then
        if s.batch.length ≠ 0 then
          if e.wOk then
            { s with written := s.written ++ s.batch, done := true }
          else
            { s with done := true }
        else
          { s with done := true }
      else
        match e.gen with
        | Except.error _ => s
        | Except.ok line =>
          { s with batch := s.batch ++ [line], count := s.count + 1,
                   generated := s.generated ++ [line] }

/-- Run the worker loop over a list of iteration inputs. -/
def runWorker (bs mc : Nat) (tr : List WStep) : WState :=
  tr.foldl (workerStep bs mc) initWState

/-- A concrete deterministic instance of the randomness model, used to
evaluate the abstract theorems on explicit inputs: the state is a
counter, `intRange` maps it into the requested range and advances it,
and rendering echoes the template text, ignoring the clock (a template
that does not use `FormattedDate`). -/
def counterRng : Rng Nat where
  seedFn := fun s => s
  intRange := fun lo hi σ => (lo + σ % (hi + 1 - lo), σ + 1)
  renderTpl := fun t _ σ => (Except.ok t, σ + 1)

/-- A concrete instance whose renderer models a template containing
`FormattedDate`: the rendered text is the formatted random instant drawn
from `[floor, now]` — here `σ % (now + 1)`, a deterministic function of
the random state AND of the call-time clock reading `now`, exactly as
`gofakeit.DateRange(minDate, time.Now())` is. -/
def clockRng : Rng Nat where
  seedFn := fun s => s
  intRange := fun lo hi σ => (lo + σ % (hi + 1 - lo), σ + 1)
  renderTpl := fun _ now σ => (Except.ok (toString (σ % (now + 1))), σ + 1)

/-- A default-branch iteration that successfully generates `l`. -/
def stepGen (l : String) : WStep :=
  ⟨Branch.dflt, Except.ok l, true⟩

/-- A ticker iteration whose write attempt (if any) has outcome `ok`. -/
def stepTick (ok : Bool) : WStep :=
  ⟨Branch.tick, Except.ok "", ok⟩

/-- A stop-signal iteration whose write attempt (if any) has outcome `ok`. -/
def stepStop (ok : Bool) : WStep :=
  ⟨Branch.stop, Except.ok "", ok⟩

/-! ## Concrete configurations used to evaluate the model -/

/-- A config whose single file output has an explicit zero worker count
and zero batch size (the YAML defaults when the keys are absent). -/
def cfgZeroWorkers : Config :=
  ⟨[⟨"L", 1⟩], [⟨OType.file, 0, 0, some "out.log", none⟩], [], 0⟩

/-- A config with an empty template list but a fully valid file output. -/
def cfgNoTemplates : Config :=
  ⟨[], [⟨OType.file, 1, 0, some "out.log", none⟩], [], 0⟩

/-- A config with templates but an empty outputs list. -/
def cfgNoOutputs : Config :=
  ⟨[⟨"L", 1⟩], [], [], 0⟩

/-- A config whose single output has an unsupported kind string. -/
def cfgBadKind : Config :=
  ⟨[⟨"L", 1⟩], [⟨OType.other "kafka", 1, 0, none, none⟩], [], 0⟩

/-! # Theorems -/

/-! ## Weighted selection: helper lemmas -/

theorem prefixW_nil (n : Nat) : prefixW [] n = 0 := by
  simp [prefixW]

theorem prefixW_zero (ws : List Nat) : prefixW ws 0 = 0 := by
  simp [prefixW]

theorem prefixW_cons_succ (w : Nat) (ws : List Nat) (n : Nat) :
    prefixW (w :: ws) (n + 1) = w + prefixW ws n := by
  simp [prefixW]

theorem prefixW_le_sum (ws : List Nat) (n : Nat) : prefixW ws n ≤ ws.sum := by
  induction ws generalizing n with
  | nil => simp [prefixW]
  | cons w ws ih =>
    cases n with
    | zero => simp [prefixW_zero]
    | succ n =>
      rw [prefixW_cons_succ, List.sum_cons]
      exact Nat.add_le_add_left (ih n) w

theorem prefixW_succ_get (ws : List Nat) (j : Nat) (hj : j < ws.length) :
    prefixW ws (j + 1) = prefixW ws j + ws.get ⟨j, hj⟩ := by
  induction ws generalizing j with
  | nil => simp at hj
  | cons w ws ih =>
    cases j with
    | zero => simp [prefixW_cons_succ, prefixW_zero]
    | succ j =>
      rw [prefixW_cons_succ, prefixW_cons_succ,
        ih j (Nat.lt_of_succ_lt_succ hj)]
      simp [Nat.add_assoc]

theorem selectAux_eq (ws : List Nat) : ∀ (j r s i : Nat), j < ws.length →
    s + prefixW ws j ≤ r → r < s + prefixW ws (j + 1) →
    selectAux ws r s i = i + j := by
  induction ws with
  | nil => intro j _ _ _ hj; simp at hj
  | cons w ws ih =>
    intro j r s i hj h1 h2
    cases j with
    | zero =>
      rw [prefixW_cons_succ, prefixW_zero] at h2
      have hlt : r < s + w := by omega
      simp [selectAux, hlt]
    | succ j =>
      rw [prefixW_cons_succ] at h1 h2
      have hw : ¬ r < s + w := by
        have := prefixW_le_sum ws j
        have h0 : (0:Nat) ≤ prefixW ws j := Nat.zero_le _
        omega
      have hj' : j < ws.length := Nat.lt_of_succ_lt_succ hj
      have hrec := ih j r (s + w) (i + 1) hj' (by omega) (by omega)
      simp only [selectAux, if_neg hw]
      rw [hrec]
      omega

theorem exists_prefix_interval : ∀ (ws : List Nat) (r : Nat), r < ws.sum →
    ∃ j, j < ws.length ∧ prefixW ws j ≤ r ∧ r < prefixW ws (j + 1) := by
  intro ws
  induction ws with
  | nil => intro r hr; simp at hr
  | cons w ws ih =>
    intro r hr
    rw [List.sum_cons] at hr
    by_cases hrw : r < w
    · exact ⟨0, by simp, by simp [prefixW_zero], by
        rw [prefixW_cons_succ, prefixW_zero]; omega⟩
    · have hsub : r - w < ws.sum := by omega
      obtain ⟨j, hj, h1, h2⟩ := ih (r - w) hsub
      refine ⟨j + 1, by simpa using Nat.succ_lt_succ hj, ?_, ?_⟩
      · rw [prefixW_cons_succ]; omega
      · rw [prefixW_cons_succ]; omega

theorem selectWeightedTemplate_eq_iff (ws : List Nat) (hsum : 0 < ws.sum)
    (r : Nat) (hr : r < ws.sum) (j : Nat) (hj : j < ws.length) :
    selectWeightedTemplate ws r = j ↔
      prefixW ws j ≤ r ∧ r < prefixW ws (j + 1) := by
  have hne : ws ≠ [] := by
    intro h; rw [h] at hsum; simp at hsum
  have hguard : ¬ (ws.sum = 0 ∨ ws.length = 0) := by
    push_neg
    exact ⟨by omega, by simpa [List.length_eq_zero] using hne⟩
  unfold selectWeightedTemplate
  rw [if_neg hguard]
  constructor
  · intro h
    obtain ⟨k, hk, hk1, hk2⟩ := exists_prefix_interval ws r hr
    have hsel := selectAux_eq ws k r 0 0 hk (by omega) (by omega)
    rw [Nat.zero_add] at hsel
    rw [hsel] at h
    rw [← h]
    exact ⟨hk1, hk2⟩
  · intro ⟨h1, h2⟩
    have hsel := selectAux_eq ws j r 0 0 hj (by omega) (by omega)
    rwa [Nat.zero_add] at hsel

theorem selectWeightedTemplate_filter_eq_Ico (ws : List Nat) (hsum : 0 < ws.sum)
    (j : Nat) (hj : j < ws.length) :
    (Finset.range ws.sum).filter (fun r => selectWeightedTemplate ws r = j) =
      Finset.Ico (prefixW ws j) (prefixW ws (j + 1)) := by
  ext r
  simp only [Finset.mem_filter, Finset.mem_range, Finset.mem_Ico]
  constructor
  · rintro ⟨hr, hsel⟩
    exact (selectWeightedTemplate_eq_iff ws hsum r hr j hj).mp hsel
  · rintro ⟨h1, h2⟩
    have hr : r < ws.sum := Nat.lt_of_lt_of_le h2 (prefixW_le_sum ws (j + 1))
    exact ⟨hr, (selectWeightedTemplate_eq_iff ws hsum r hr j hj).mpr ⟨h1, h2⟩⟩

/-- C1: with positive total weight, `selectWeightedTemplate` applied to a
draw `r ∈ [0, totalWeight-1]` returns index `j` exactly when `r` falls in
the half-open window `[w_0+...+w_{j-1}, w_0+...+w_j)` — the first index
whose running weight sum exceeds `r`; consequently index `j` is returned
for exactly `w_j` of the `totalWeight` possible draws (selection
probability exactly proportional to weight), and a zero-weight template
is never returned for any in-range draw. -/
theorem selectWeightedTemplate_weighted (ws : List Nat) (hsum : 0 < ws.sum) :
    (∀ r, r < ws.sum → ∀ j, (hj : j < ws.length) →
      (selectWeightedTemplate ws r = j ↔
        prefixW ws j ≤ r ∧ r < prefixW ws (j + 1)))
    ∧ (∀ j, (hj : j < ws.length) →
      ((Finset.range ws.sum).filter
        (fun r => selectWeightedTemplate ws r = j)).card = ws.get ⟨j, hj⟩)
    ∧ (∀ j, (hj : j < ws.length) → ws.get ⟨j, hj⟩ = 0 →
      ∀ r, r < ws.sum → selectWeightedTemplate ws r ≠ j) := by
  refine ⟨fun r hr j hj => selectWeightedTemplate_eq_iff ws hsum r hr j hj,
    fun j hj => ?_, fun j hj hw r hr hsel => ?_⟩
  · rw [selectWeightedTemplate_filter_eq_Ico ws hsum j hj, Nat.card_Ico,
      prefixW_succ_get ws j hj]
    omega
  · have h := (selectWeightedTemplate_eq_iff ws hsum r hr j hj).mp hsel
    rw [prefixW_succ_get ws j hj, hw] at h
    omega

/-- Witness for C1 at the concrete weight list `[2, 0, 3]` (total 5):
the zero-weight template at index 1 is not selected for draw 2, and
index 2 is selected for exactly 3 of the 5 draws. -/
theorem selectWeightedTemplate_weighted_witness :
    selectWeightedTemplate [2, 0, 3] 2 ≠ 1 ∧
    ((Finset.range 5).filter
      (fun r => selectWeightedTemplate [2, 0, 3] r = 2)).card = 3 := by
  have h := selectWeightedTemplate_weighted [2, 0, 3] (by decide)
  exact ⟨h.2.2 1 (by decide) (by decide) 2 (by decide),
    by simpa using h.2.1 2 (by decide)⟩

/-! ## Determinism under a fixed seed -/

/-- C7 counterexample: byte-identity under a fixed seed fails for a
configuration whose single template uses `FormattedDate`.  Both runs
are seeded with 12345 from the same prior state and make one strictly
sequential call each, but the first run's call observes clock instant
100 and the second run's call observes clock instant 200 — as happens
when the two generators are constructed and used at different times —
and the rendered lines differ, because `FormattedDate` draws from
`[2020-01-01, time.Now()]` with the upper bound taken at call time. -/
theorem generateLogLine_deterministic_counterexample :
    (⟨[⟨"d", 1⟩], [], [], 12345⟩ : Config).seed ≠ 0
    ∧ runN clockRng [⟨"d", 1⟩] [100] (newGeneratorSeed clockRng 12345 0)
        ≠ runN clockRng [⟨"d", 1⟩] [200] (newGeneratorSeed clockRng 12345 0) := by
  refine ⟨by decide, by decide⟩

/-- C7 (amended): with a fixed non-zero seed, two independently
constructed generators from identical configurations — i.e. two
constructions performed over arbitrary, possibly different prior states
of the global random source — produce identical sequences of strictly
sequential `GenerateLogLine` results, element for element, provided the
two runs observe the same sequence of call-time clock readings (in
particular whenever the templates' rendering does not consult the
clock): seeding at construction replaces the prior state, and every
subsequent draw is a deterministic function of the state and the clock.
Byte-identity can fail only through `FormattedDate`'s call-time
`time.Now()` upper bound. -/
theorem generateLogLine_deterministic_same_clock {S : Type} (M : Rng S)
    (cfg : Config) (clocks : List Nat) (hseed : cfg.seed ≠ 0) (σ1 σ2 : S) :
    runN M cfg.templates clocks (newGeneratorSeed M cfg.seed σ1) =
      runN M cfg.templates clocks (newGeneratorSeed M cfg.seed σ2) := by
  unfold newGeneratorSeed
  rw [if_pos hseed, if_pos hseed]

/-- Witness for C7's amended theorem: the clock-dependent model, a
seeded config, two calls at clock instants 100 and 200, two different
prior states — identical output sequences once the clock readings
agree. -/
theorem generateLogLine_deterministic_same_clock_witness :
    (⟨[⟨"tpl", 1⟩], [], [], 12345⟩ : Config).seed ≠ 0 ∧
    runN clockRng [⟨"tpl", 1⟩] [100, 200]
        (newGeneratorSeed clockRng 12345 0) =
      runN clockRng [⟨"tpl", 1⟩] [100, 200]
        (newGeneratorSeed clockRng 12345 999) :=
  ⟨by decide,
    generateLogLine_deterministic_same_clock clockRng
      ⟨[⟨"tpl", 1⟩], [], [], 12345⟩ [100, 200] (by decide) 0 999⟩

/-! ## GenerateLogLine error handling -/

/-- C9: `GenerateLogLine` on an empty template list returns the
`"no templates available"` error with the empty string (total function —
never a panic, never an empty-string success since the error is set);
whenever an error is returned the accompanying string is empty (no
partial output); and with a non-empty template list any returned error
wraps the underlying rendering cause.  All of this holds for every
renderer, random state and call-time clock reading. -/
theorem generateLogLine_errors {S : Type} (M : Rng S)
    (ts : List LogTemplate) (now : Nat) (σ : S) :
    (ts.length = 0 →
      generateLogLine M ts now σ = (("", some "no templates available"), σ))
    ∧ (∀ line err σ2, generateLogLine M ts now σ = ((line, some err), σ2) →
      line = "")
    ∧ (ts.length ≠ 0 → ∀ line err σ2,
      generateLogLine M ts now σ = ((line, some err), σ2) →
      ∃ cause, err = "error generating log line: " ++ cause) := by
  refine ⟨fun h => by simp [generateLogLine, h], ?_, ?_⟩
  · intro line err σ2 h
    unfold generateLogLine at h
    by_cases hlen : ts.length = 0
    · rw [if_pos hlen] at h
      exact (congrArg (fun p => p.1.1) h).symm
    · rw [if_neg hlen] at h
      rcases hrender : M.renderTpl
          (ts.getD (selectWeightedTemplateS M (ts.map (·.weight)) σ).1
            ⟨"", 0⟩).template
          now
          (selectWeightedTemplateS M (ts.map (·.weight)) σ).2 with ⟨res, σ3⟩
      rw [hrender] at h
      cases res with
      | error e => exact (congrArg (fun p => p.1.1) h).symm
      | ok l => simp at h
  · intro hlen line err σ2 h
    unfold generateLogLine at h
    rw [if_neg hlen] at h
    rcases hrender : M.renderTpl
        (ts.getD (selectWeightedTemplateS M (ts.map (·.weight)) σ).1
          ⟨"", 0⟩).template
        now
        (selectWeightedTemplateS M (ts.map (·.weight)) σ).2 with ⟨res, σ3⟩
    rw [hrender] at h
    cases res with
    | error e =>
      refine ⟨e, ?_⟩
      have h2 := congrArg (fun p => p.1.2) h
      simpa using h2.symm
    | ok l => simp at h

/-- Witness for C9: empty template list, concrete model, clock and
state. -/
theorem generateLogLine_errors_witness :
    generateLogLine counterRng [] 7 0 =
      (("", some "no templates available"), 0) :=
  (generateLogLine_errors counterRng [] 7 0).1 rfl

/-! ## Custom-type value functions -/

/-- C10: the function installed for a custom type returns, for the drawn
index `r` ranging over exactly `[0, len-1]`, the list element at index
`r` — so a uniform draw over the index range yields each position
uniformly — and on an empty value list it returns the empty string for
every draw (total function: never an error, never a panic). -/
theorem createRandomValueFunc_spec (values : List String) :
    (values.length = 0 → ∀ r, createRandomValueFunc values r = "")
    ∧ (∀ r, (h : r < values.length) →
      createRandomValueFunc values r = values.get ⟨r, h⟩) := by
  constructor
  · intro h r
    simp [createRandomValueFunc, h]
  · intro r h
    have hne : values.length ≠ 0 := by omega
    simp [createRandomValueFunc, hne, List.getD_eq_getElem?_getD,
      List.getElem?_eq_getElem h]

/-- Witness for C10: a three-element list and the draw `2`. -/
theorem createRandomValueFunc_spec_witness :
    createRandomValueFunc ["x", "y", "z"] 2 = "z" := by
  have h := (createRandomValueFunc_spec ["x", "y", "z"]).2 2 (by decide)
  simpa using h

/-! ## Per-worker count limits -/

/-- When the output's parameters are valid, the worker-creation loop
succeeds and gives every worker the same batch size (the literal 100)
and the same per-worker limit. -/
theorem initWorkers_ok (o : OutputConfig) (mcpw : Nat)
    (hok : (newOutput o).isOk = true) :
    ∀ n, initWorkers o mcpw n = Except.ok (List.replicate n ⟨100, mcpw⟩) := by
  intro n
  rcases hno : newOutput o with f | u
  · rw [hno] at hok; simp [Except.isOk, Except.toBool] at hok
  · induction n with
    | zero => rfl
    | succ n ih =>
      rw [initWorkers, hno, ih]
      rfl

/-- C6: for a bounded target `t > 0` and worker count `w ≥ 1`, the
per-worker limit computed by `initializeOutputs` is exactly
`⌈t / w⌉ = (t + w - 1) / w`, the summed capacity `w * limit` is at least
`t`, and every worker created for such an output indeed receives that
limit. -/
theorem maxCountPerWorker_ceil (t w : Nat) (ht : 0 < t) (hw : 1 ≤ w) :
    maxCountPerWorker t w = (t + w - 1) / w
    ∧ t ≤ w * maxCountPerWorker t w
    ∧ ∀ o : OutputConfig, o.workers = w → (newOutput o).isOk = true →
        initializeOutputs t [o] =
          Except.ok (List.replicate w ⟨100, maxCountPerWorker t w⟩) := by
  have hdm := Nat.div_add_mod t w
  have hmlt : t % w < w := Nat.mod_lt t (by omega)
  refine ⟨?_, ?_, ?_⟩
  · unfold maxCountPerWorker
    rw [if_pos ht]
    have h1 : t + w - 1 = t + (w - 1) := by omega
    rw [h1, Nat.add_div (show 0 < w by omega),
      Nat.mod_eq_of_lt (show w - 1 < w by omega),
      Nat.div_eq_of_lt (show w - 1 < w by omega)]
    by_cases hr : t % w = 0
    · rw [if_pos hr, if_neg (by omega)]
    · rw [if_neg hr, if_pos (by omega)]
  · unfold maxCountPerWorker
    rw [if_pos ht]
    by_cases hr : t % w = 0
    · rw [if_pos hr, Nat.add_zero]
      omega
    · rw [if_neg hr, Nat.mul_add, Nat.mul_one]
      omega
  · intro o how hok
    rw [initializeOutputs, if_neg (by omega),
      initWorkers_ok o (maxCountPerWorker t o.workers) hok o.workers,
      initializeOutputs]
    rw [how]
    simp

/-- Witness for C6: target 10 split across 4 workers gives each a limit
of 3, with total capacity 12 ≥ 10. -/
theorem maxCountPerWorker_ceil_witness :
    maxCountPerWorker 10 4 = (10 + 4 - 1) / 4 ∧ 10 ≤ 4 * maxCountPerWorker 10 4 := by
  have h := maxCountPerWorker_ceil 10 4 (by decide) (by decide)
  exact ⟨h.1, h.2.1⟩

/-! ## Construction-time defaulting (C5) -/

/-- C5 (code bug): the config with an explicit zero worker count and zero
batch size passes `Config.Validate` (whose defaulting of
`Workers = 1` / `BatchSize = 100` is assigned to a range-loop copy and
lost, and which is in any case never invoked), and `NewGenerator` with a
bounded target then divides the target by the zero worker count — a
runtime panic, not the documented defaulting; additionally, the workers
that `initializeOutputs` does create always receive the literal batch
size 100, never the output's configured batch size. -/
theorem newGenerator_zero_workers_panics :
    validateGo cfgZeroWorkers = none
    ∧ NewGenerator cfgZeroWorkers 10 =
        Except.error (GoFailure.panic "runtime error: integer divide by zero")
    ∧ (∀ o : OutputConfig, (newOutput o).isOk = true →
        ∀ wc ∈ (initWorkers o (maxCountPerWorker 10 o.workers) o.workers).toOption.getD [],
          wc.batchSize = 100) := by
  refine ⟨rfl, rfl, ?_⟩
  intro o hok wc hwc
  rw [initWorkers_ok o (maxCountPerWorker 10 o.workers) hok o.workers] at hwc
  simp only [Except.toOption, Option.getD_some] at hwc
  exact (List.eq_of_mem_replicate hwc) ▸ rfl

/-- Witness for C5's universally quantified batch-size conjunct: a
concrete valid output with 3 workers and configured batch size 7, whose
created workers nonetheless carry batch size 100. -/
theorem newGenerator_zero_workers_panics_witness :
    (newOutput ⟨OType.file, 3, 7, some "a.log", none⟩).isOk = true
    ∧ (⟨100, maxCountPerWorker 10 3⟩ : WorkerCfg) ∈
        (initWorkers ⟨OType.file, 3, 7, some "a.log", none⟩
          (maxCountPerWorker 10 3) 3).toOption.getD []
    ∧ (⟨100, maxCountPerWorker 10 3⟩ : WorkerCfg).batchSize = 100 :=
  ⟨by decide, by decide,
    newGenerator_zero_workers_panics.2.2 ⟨OType.file, 3, 7, some "a.log", none⟩
      (by decide) ⟨100, maxCountPerWorker 10 3⟩ (by decide)⟩

/-! ## Stop and sink-close policy (C3) -/

/-- C3 counterexample: with two sinks whose first close fails, `Stop`'s
close loop returns the first (wrapped) error after attempting only one
of the two closes — the second sink is never closed, refuting
"attempts to close every sink regardless of earlier close failures". -/
theorem closeAll_counterexample :
    closeAll [some "disk full", none] =
      (some "error closing output: disk full", 1)
    ∧ ([some "disk full", none] : List (Option String)).length = 2 := by
  exact ⟨rfl, rfl⟩

/-- C3 (amended): `Stop` closes the sinks in order and returns on the
first close failure, wrapping that error and leaving the remaining sinks
unclosed; only when every close succeeds are all sinks closed, and then
`nil` is returned. -/
theorem closeAll_first_error (rs : List (Option String)) :
    ((∀ x ∈ rs, x = none) → closeAll rs = (none, rs.length))
    ∧ (∀ k, (hk : k < rs.length) → ∀ e : String,
      (∀ i, (hi : i < k) → rs.get ⟨i, Nat.lt_trans hi hk⟩ = none) →
      rs.get ⟨k, hk⟩ = some e →
      closeAll rs = (some ("error closing output: " ++ e), k + 1)) := by
  induction rs with
  | nil =>
    refine ⟨fun _ => rfl, ?_⟩
    intro k hk
    simp at hk
  | cons x rest ih =>
    constructor
    · intro hall
      have hx : x = none := hall x (List.mem_cons_self x rest)
      have hrest := ih.1 (fun y hy => hall y (List.mem_cons_of_mem x hy))
      rw [hx, closeAll, hrest]
      simp
    · intro k hk e hpre hget
      cases k with
      | zero =>
        simp only [List.get] at hget
        rw [hget]
        rfl
      | succ k =>
        have hx : x = none := hpre 0 (Nat.succ_pos k)
        have hk' : k < rest.length := Nat.lt_of_succ_lt_succ hk
        have hrest := ih.2 k hk' e
          (fun i hi => hpre (i + 1) (Nat.succ_lt_succ hi)) hget
        rw [hx, closeAll, hrest]

/-- Witness for C3's amended theorem: first close succeeds, second
fails — the loop stops after two attempted closes with the wrapped
error. -/
theorem closeAll_first_error_witness :
    closeAll [none, some "boom"] = (some "error closing output: boom", 2) :=
  (closeAll_first_error [none, some "boom"]).2 1 (by decide) "boom"
    (by intro i hi; interval_cases i; rfl) rfl

/-! ## Construction-time validation (C4) -/

/-- C4 counterexample: a config with an empty template list (and a fully
valid output) and a config with an empty outputs list both construct
successfully — `NewGenerator` never invokes `Config.Validate`, whose
checks (shown alongside) would have rejected them. -/
theorem newGenerator_no_validation_counterexample :
    cfgNoTemplates.templates = []
    ∧ (NewGenerator cfgNoTemplates 0).isOk = true
    ∧ cfgNoOutputs.outputs = []
    ∧ (NewGenerator cfgNoOutputs 5).isOk = true
    ∧ validateGo cfgNoTemplates = some "no templates configured"
    ∧ validateGo cfgNoOutputs = some "no outputs configured" := by
  refine ⟨rfl, rfl, rfl, rfl, rfl, rfl⟩

theorem newGenerator_isOk_eq (cfg : Config) (m : Nat) :
    (NewGenerator cfg m).isOk = (initializeOutputs m cfg.outputs).isOk := by
  unfold NewGenerator
  rcases h : initializeOutputs m cfg.outputs with f | ws
  · cases f <;> rfl
  · rfl

theorem initWorkers_isOk_false (o : OutputConfig) (mcpw : Nat)
    (hbad : (newOutput o).isOk = false) :
    ∀ n, 0 < n → (initWorkers o mcpw n).isOk = false := by
  intro n hn
  rcases hno : newOutput o with f | u
  · cases n with
    | zero => omega
    | succ n =>
      rw [initWorkers, hno]
      cases f <;> rfl
  · rw [hno] at hbad
    simp [Except.isOk, Except.toBool] at hbad

theorem initializeOutputs_isOk (m : Nat) :
    ∀ outs : List OutputConfig, (∀ o ∈ outs, 1 ≤ o.workers) →
    ((initializeOutputs m outs).isOk = true ↔
      ∀ o ∈ outs, (newOutput o).isOk = true) := by
  intro outs
  induction outs with
  | nil =>
    intro _
    simp [initializeOutputs, Except.isOk, Except.toBool]
  | cons o rest ih =>
    intro hw
    have hguard : ¬ (0 < m ∧ o.workers = 0) := by
      have := hw o (List.mem_cons_self o rest)
      omega
    have hrest := ih (fun x hx => hw x (List.mem_cons_of_mem o hx))
    rcases hno : (newOutput o).isOk with htf | htf
    · have hfail := initWorkers_isOk_false o (maxCountPerWorker m o.workers)
        hno o.workers (by have := hw o (List.mem_cons_self o rest); omega)
      rcases hiw : initWorkers o (maxCountPerWorker m o.workers) o.workers
        with f | ws
      · rw [initializeOutputs, if_neg hguard, hiw]
        refine iff_of_false (fun hc => Bool.noConfusion hc) (fun hall => ?_)
        have hx := hall o (List.mem_cons_self o rest)
        rw [hno] at hx
        exact Bool.noConfusion hx
      · rw [hiw] at hfail
        exact Bool.noConfusion hfail
    · rw [initializeOutputs, if_neg hguard,
        initWorkers_ok o (maxCountPerWorker m o.workers) hno o.workers]
      rcases h2 : initializeOutputs m rest with f | ws
      · refine iff_of_false (fun hc => Bool.noConfusion hc) (fun hall => ?_)
        have hy : (initializeOutputs m rest).isOk = true :=
          hrest.mpr (fun x hx => hall x (List.mem_cons_of_mem o hx))
        rw [h2] at hy
        exact Bool.noConfusion hy
      · refine iff_of_true rfl (fun x hx => ?_)
        rcases List.mem_cons.mp hx with h | h
        · rw [h]; exact hno
        · exact hrest.mp (by rw [h2]; rfl) x h

/-- C4 (amended): when every configured output has a positive worker
count, generator construction succeeds exactly when every output's
kind-specific parameters are valid (file has a `filename`, UDP has an
`address`, the kind is supported); in particular a missing required
parameter or an unsupported kind fails at construction time, while an
empty template list or an empty outputs list does not — those are only
caught later (an empty template list surfaces as a `GenerateLogLine`
error at call time). -/
theorem newGenerator_param_check (cfg : Config) (m : Nat)
    (hw : ∀ o ∈ cfg.outputs, 1 ≤ o.workers) :
    (NewGenerator cfg m).isOk = true ↔
      ∀ o ∈ cfg.outputs, (newOutput o).isOk = true := by
  rw [newGenerator_isOk_eq]
  exact initializeOutputs_isOk m cfg.outputs hw

/-- Witness for C4's amended theorem: construction fails on an
unsupported output kind. -/
theorem newGenerator_param_check_witness :
    (NewGenerator cfgBadKind 0).isOk = false := by
  have h := newGenerator_param_check cfgBadKind 0 (by decide)
  revert h
  decide

/-! ## Worker loop: flush timing (C2) -/

/-- C2 counterexample: batch size 1, no count limit.  After one
default-branch iteration the batch holds one line and has reached the
configured batch size, yet the next iteration (the ticker has not fired,
so `select` takes the `default` branch) generates and appends a second
line without any flush: nothing has been written and the batch exceeds
the batch size — the full-batch check is evaluated only when the 100ms
ticker fires, not ahead of the generate-more path. -/
theorem worker_full_batch_not_flushed_counterexample :
    (runWorker 1 0 [stepGen "a"]).batch.length = 1
    ∧ (runWorker 1 0 [stepGen "a", stepGen "b"]).batch.length = 2
    ∧ (runWorker 1 0 [stepGen "a", stepGen "b"]).written = [] := by
  refine ⟨rfl, rfl, rfl⟩

/-- C2 (amended): in each iteration the worker polls the stop channel,
the 100ms ticker and a non-blocking default.  The full-batch flush is
performed only on a ticker iteration (and then only if the batch has
reached the batch size), while a default iteration generates and
appends one more line regardless of batch fullness — so the batch is
flushed when the timer fires with a full batch, but can grow beyond the
configured batch size between ticks. -/
theorem worker_flush_only_on_tick (bs mc : Nat) (s : WState) (e : WStep)
    (hdone : s.done = false) :
    (e.br = Branch.tick → bs ≤ s.batch.length → e.wOk = true →
      (workerStep bs mc s e).batch = []
      ∧ (workerStep bs mc s e).written = s.written ++ s.batch)
    ∧ (e.br = Branch.dflt → ¬ (0 < mc ∧ mc ≤ s.count) →
      ∀ l, e.gen = Except.ok l →
      (workerStep bs mc s e).batch = s.batch ++ [l]) := by
  obtain ⟨br, gen, wok⟩ := e
  obtain ⟨batch, count, written, generated, done⟩ := s
  simp only at hdone
  subst hdone
  constructor
  · intro hbr hfull hok
    simp only at hbr hfull hok
    subst hbr
    subst hok
    simp [workerStep, hfull]
  · intro hbr hlim l hgen
    simp only at hbr hgen
    subst hbr
    subst hgen
    simp [workerStep, hlim]

/-- Witness for C2's amended theorem: a full batch of one line is
flushed by a ticker iteration, and a default iteration appends. -/
theorem worker_flush_only_on_tick_witness :
    (workerStep 1 0 ⟨["a"], 1, [], ["a"], false⟩ (stepTick true)).batch = []
    ∧ (workerStep 1 0 ⟨["a"], 1, [], ["a"], false⟩ (stepTick true)).written
        = [] ++ ["a"]
    ∧ (workerStep 1 0 ⟨["a"], 1, [], ["a"], false⟩ (stepGen "b")).batch
        = ["a"] ++ ["b"] := by
  have h := worker_flush_only_on_tick 1 0 ⟨["a"], 1, [], ["a"], false⟩
    (stepTick true) rfl
  have h2 := worker_flush_only_on_tick 1 0 ⟨["a"], 1, [], ["a"], false⟩
    (stepGen "b") rfl
  have hx := h.1 rfl (by decide) rfl
  exact ⟨hx.1, hx.2, h2.2 rfl (by decide) "b" rfl⟩

/-! ## Worker loop: no silent drops on stop (C8) -/

/-- The worker-loop bookkeeping invariant: while running, the lines
successfully written plus the current batch are exactly the lines the
generator produced; once the loop has returned, everything produced has
been written. -/
def WInv (s : WState) : Prop :=
  (s.done = false → s.written ++ s.batch = s.generated)
  ∧ (s.done = true → s.written = s.generated)

theorem workerStep_preserves_inv (bs mc : Nat) (s : WState) (e : WStep)
    (hok : e.wOk = true) (hinv : WInv s) : WInv (workerStep bs mc s e) := by
  obtain ⟨br, gen, wok⟩ := e
  obtain ⟨batch, count, written, generated, done⟩ := s
  simp only at hok
  subst hok
  obtain ⟨hrun, hfin⟩ := hinv
  simp only at hrun hfin
  cases done with
  | true => exact ⟨hrun, hfin⟩
  | false =>
    have hr := hrun rfl
    cases br with
    | stop =>
      by_cases hb : batch.length ≠ 0
      · refine ⟨?_, ?_⟩
        · intro h
          simp [workerStep, hb] at h
        · intro _
          simp [workerStep, hb]
          exact hr
      · push_neg at hb
        have hbe : batch = [] := List.length_eq_zero.mp hb
        subst hbe
        refine ⟨?_, ?_⟩
        · intro h
          simp [workerStep] at h
        · intro _
          simp [workerStep]
          simpa using hr
    | tick =>
      by_cases hfull : bs ≤ batch.length
      · refine ⟨?_, ?_⟩
        · intro _
          simp [workerStep, hfull]
          simpa using hr
        · intro h
          simp [workerStep, hfull] at h
      · refine ⟨?_, ?_⟩
        · intro _
          simp [workerStep, hfull]
          simpa using hr
        · intro h
          simp [workerStep, hfull] at h
    | dflt =>
      by_cases hlim : 0 < mc ∧ mc ≤ count
      · by_cases hb : batch.length ≠ 0
        · refine ⟨?_, ?_⟩
          · intro h
            simp [workerStep, hlim, hb] at h
          · intro _
            simp [workerStep, hlim, hb]
            exact hr
        · push_neg at hb
          have hbe : batch = [] := List.length_eq_zero.mp hb
          subst hbe
          refine ⟨?_, ?_⟩
          · intro h
            simp [workerStep, hlim] at h
          · intro _
            simp [workerStep, hlim]
            simpa using hr
      · rcases gen with err | l
        · refine ⟨?_, ?_⟩
          · intro _
            simp [workerStep, hlim]
            simpa using hr
          · intro h
            simp [workerStep, hlim] at h
        · refine ⟨?_, ?_⟩
          · intro _
            simp [workerStep, hlim]
            rw [← List.append_assoc, hr]
          · intro h
            simp [workerStep, hlim] at h

theorem runWorker_foldl_inv (bs mc : Nat) :
    ∀ (tr : List WStep) (s : WState), (∀ e ∈ tr, e.wOk = true) → WInv s →
    WInv (tr.foldl (workerStep bs mc) s) := by
  intro tr
  induction tr with
  | nil => intro s _ hinv; exact hinv
  | cons e tr ih =>
    intro s hok hinv
    exact ih (workerStep bs mc s e)
      (fun x hx => hok x (List.mem_cons_of_mem e hx))
      (workerStep_preserves_inv bs mc s e (hok e (List.mem_cons_self e tr)) hinv)

/-- C8 (amended): over any schedule in which every attempted sink write
succeeds, the worker never drops a line: while running, written lines
plus the batch are exactly the generated lines, and whenever the loop
has terminated (stop signal or count limit, both of which flush the
partial batch) every generated line has been written.  A line can be
lost only through a failed sink write — either the final flush, or a
periodic flush, whose batch is cleared even when its write fails. -/
theorem worker_stop_flushes_all (bs mc : Nat) (tr : List WStep)
    (hok : ∀ e ∈ tr, e.wOk = true) :
    ((runWorker bs mc tr).done = false →
      (runWorker bs mc tr).written ++ (runWorker bs mc tr).batch
        = (runWorker bs mc tr).generated)
    ∧ ((runWorker bs mc tr).done = true →
      (runWorker bs mc tr).written = (runWorker bs mc tr).generated) :=
  runWorker_foldl_inv bs mc tr initWState hok
    ⟨fun _ => rfl, fun h => Bool.noConfusion h⟩

/-- Witness for C8's amended theorem: two generated lines, a stop
signal, all writes succeeding — everything generated is written. -/
theorem worker_stop_flushes_all_witness :
    (runWorker 3 0 [stepGen "a", stepGen "b", stepStop true]).written
      = (runWorker 3 0 [stepGen "a", stepGen "b", stepStop true]).generated :=
  (worker_stop_flushes_all 3 0 [stepGen "a", stepGen "b", stepStop true]
    (by decide)).2 (by decide)

/-- C8 counterexample: batch size 1.  One line is generated before the
stop signal; the intervening ticker flush's write fails and the batch is
cleared anyway; the final (stop-signal) flush has nothing left to write
and its write outcome is success — yet the generated line was never
written to the sink, so it was lost even though the final flush did not
error. -/
theorem worker_periodic_flush_loss_counterexample :
    (runWorker 1 0 [stepGen "a", stepTick false, stepStop true]).done = true
    ∧ (runWorker 1 0 [stepGen "a", stepTick false, stepStop true]).generated
        = ["a"]
    ∧ (runWorker 1 0 [stepGen "a", stepTick false, stepStop true]).written = []
    ∧ (stepStop true).wOk = true := by
  refine ⟨rfl, rfl, rfl, rfl⟩

